import Mathlib

/-!
Verification development for the Doyen.gRPC script-manager runtime.

The definitions below are a shallow embedding of the Python sources:
  * `Doyen.Scripts.Indicators/Indicator.py` (base indicator, datapoint ids)
  * `Doyen.Scripts.Indicators/SMA.py` (SMA indicator `process`)
  * `Doyen.Scripts.Indicators/Doyen.Indicators.ScriptManager.py`
  * `Doyen.Scripts.Algorithms/Algorithm.py`
  * `Doyen.Scripts.Algorithms/Doyen.Algorithms.ScriptManager.py`

Python dicts are modelled as insertion-ordered association lists, machine
side effects (module loading, the remote gRPC engine, raising hooks) as
explicit parameters describing the outcome of each external call, and
exceptions as `Option`/outcome values threaded through the control flow
exactly where the source catches them.
-/

namespace Doyen

/-- `d.get(key)` / `key in d` on a Python dict, modelled as an
insertion-ordered association list. -/
def alookup {K V : Type} [DecidableEq K] : List (K × V) → K → Option V
  | [], _ => none
  | (k, v) :: rest, key => if k = key then some v else alookup rest key

/-- `d[key] = value` on a Python dict: replace in place if the key is
present, otherwise append at the end (insertion order). -/
def aset {K V : Type} [DecidableEq K] : List (K × V) → K → V → List (K × V)
  | [], key, v => [(key, v)]
  | (k, w) :: rest, key, v =>
    if k = key then (k, v) :: rest else (k, w) :: aset rest key v

/-- `del d[key]` on a Python dict. -/
def adel {K V : Type} [DecidableEq K] : List (K × V) → K → List (K × V)
  | [], _ => []
  | (k, v) :: rest, key => if k = key then adel rest key else (k, v) :: adel rest key

/-! ### DataPointIdentity assignment (`Indicator.py`, `get_datapoint_id`)

`Indicator.__init__` sets `self.datapoint_ids = {}` and
`self.next_datapoint_id = 1`; `get_datapoint_id(start, end)` memoizes
`(start, end) -> id` and bumps the counter on first observation. -/

/-- The `datapoint_ids` / `next_datapoint_id` fields of `Indicator`. -/
structure DataPointState where
  datapoint_ids : List ((ℕ × ℕ) × ℕ)
  next_datapoint_id : ℕ
  deriving Repr, DecidableEq

/-- The state set up by `Indicator.__init__` / `Indicator.start`. -/
def initDataPoints : DataPointState := ⟨[], 1⟩

/-- `Indicator.get_datapoint_id(self, start, end)`:
if the key is absent, assign `next_datapoint_id` and increment it;
return the memoized id together with the updated state. -/
def get_datapoint_id (s : DataPointState) (start_ts end_ts : ℕ) :
    ℕ × DataPointState :=
  match alookup s.datapoint_ids (start_ts, end_ts) with
  | some i => (i, s)
  | none =>
      (s.next_datapoint_id,
       { datapoint_ids :=
           s.datapoint_ids ++ [((start_ts, end_ts), s.next_datapoint_id)],
         next_datapoint_id := s.next_datapoint_id + 1 })

/-- Run a sequence of `get_datapoint_id` requests, keeping only the state. -/
def runDatapoints (s : DataPointState) : List (ℕ × ℕ) → DataPointState
  | [] => s
  | k :: ks => runDatapoints (get_datapoint_id s k.1 k.2).2 ks

/-! ### The SMA indicator (`SMA.py`)

Prices are modelled as rationals (`statistics.mean` of a window of length
`sma_period` is the exact sum divided by the length); timestamps as
naturals.  The EMA indicator (`EMA.py`) has literally the same control
flow around validity, datapoint identity and the append condition, so the
SMA embedding is the representative for both. -/

/-- An RGB colour triple, as produced by `Indicator.parse_color`. -/
abbrev Color := ℕ × ℕ × ℕ

/-- The fields of the candle dict built by `candlestick_to_dict` that
`SMAIndicator.process` reads. -/
structure Candle where
  close : ℚ
  timestamp : ℕ
  start_time : ℕ
  end_time : ℕ
  deriving Repr, DecidableEq

/-- The result dict built at the end of `SMAIndicator.process`. -/
structure ResultRec where
  label : String
  timestamp : ℕ
  type : ℕ
  value : ℚ
  r : ℕ
  g : ℕ
  b : ℕ
  start_time : ℕ
  end_time : ℕ
  dataPointId : ℕ
  deriving Repr, DecidableEq

/-- The mutable state of an `SMAIndicator` object. -/
structure SMAState where
  sma_period : ℕ
  historical_prices : List ℚ
  historical_results : List ResultRec
  dp : DataPointState
  up_color : Color
  down_color : Color
  default_color : Color
  deriving Repr, DecidableEq

/-- `SMAIndicator._calculate_sma`: `None` when fewer than `sma_period`
prices are stored, otherwise the mean of the last `sma_period` prices. -/
def calculate_sma (s : SMAState) : Option ℚ :=
  if s.historical_prices.length < s.sma_period then none
  else
    some (((s.historical_prices.drop
              (s.historical_prices.length - s.sma_period)).sum) /
          (s.sma_period : ℚ))

/-- `SMAIndicator.process(self, candles)`.  Returns the result dict (or
`None` on an empty candle list) together with the updated object state.
The `elif` keeps the history-trim branch and the not-enough-data branch
mutually exclusive, exactly as in the source; `valid_sma` is decided on
the price list *before* the new close is appended.  `None` from
`_calculate_sma` cannot occur when `valid_sma` holds (the window already
has at least `sma_period` entries), so the `getD` default is dead code
kept only for totality. -/
def SMAprocess (s : SMAState) (candles : List Candle) :
    Option ResultRec × SMAState :=
  match candles with
  | [] => (none, s)
  | latest_candle :: _ =>
    let close_price := latest_candle.close
    let max_history := max (s.sma_period * 3) 100
    let pv : List ℚ × Bool :=
      if s.historical_prices.length > max_history then
        (s.historical_prices.drop (s.historical_prices.length - max_history),
         true)
      else if s.historical_prices.length < s.sma_period then
        (s.historical_prices, false)
      else
        (s.historical_prices, true)
    let prices1 := pv.1
    let valid_sma := pv.2
    let dt := latest_candle.timestamp
    let last_datapoint_id := s.dp.next_datapoint_id - 1
    let idst := get_datapoint_id s.dp latest_candle.start_time
                  latest_candle.end_time
    let datapoint_id := idst.1
    let newResult : Bool := last_datapoint_id != datapoint_id
    let prices2 :=
      if newResult then prices1 ++ [close_price]
      else prices1.dropLast ++ [close_price]
    let s1 : SMAState := { s with historical_prices := prices2, dp := idst.2 }
    let vc : ℚ × Color :=
      if valid_sma then
        let latest_sma := (calculate_sma s1).getD close_price
        match s.historical_results.getLast? with
        | some prev =>
            if prev.value ≤ latest_sma then (latest_sma, s.up_color)
            else (latest_sma, s.down_color)
        | none => (latest_sma, s.default_color)
      else (close_price, s.default_color)
    let result : ResultRec :=
      { label := "SMA",
        timestamp := dt,
        type := 2,
        value := vc.1,
        r := vc.2.1,
        g := vc.2.2.1,
        b := vc.2.2.2,
        start_time := latest_candle.start_time,
        end_time := latest_candle.end_time,
        dataPointId := datapoint_id }
    let results2 :=
      if last_datapoint_id ≤ 0 ∨ newResult = true ∨ valid_sma = false then
        s.historical_results ++ [result]
      else s.historical_results
    (some result, { s1 with historical_results := results2 })

/-- The `SMAIndicator` state right after `SMAIndicator.start` has reset the
price list, stored the parsed options (period and colours) and before the
historical-data loop runs; `Indicator.start` resets `historical_results`,
`datapoint_ids` and `next_datapoint_id`. -/
def SMAstarted (period : ℕ) (up down dflt : Color) : SMAState :=
  { sma_period := period,
    historical_prices := [],
    historical_results := [],
    dp := initDataPoints,
    up_color := up,
    down_color := down,
    default_color := dflt }

/-- `SMAIndicator.start(self, historical_data, options)`: after storing
the options it feeds each historical candle through `process`, one at a
time. -/
def SMAstart (period : ℕ) (up down dflt : Color)
    (historical_data : List Candle) : SMAState :=
  historical_data.foldl (fun s c => (SMAprocess s [c]).2)
    (SMAstarted period up down dflt)

/-- Feed candles one at a time (as both `start` and the per-message
`ProcessData` path do), collecting each returned result dict. -/
def runSMA (s : SMAState) : List Candle → List (Option ResultRec) × SMAState
  | [] => ([], s)
  | c :: cs =>
    let step := SMAprocess s [c]
    let rest := runSMA step.2 cs
    (step.1 :: rest.1, rest.2)

/-- A candle for window `(i, i)` with the given close; consecutive indices
give pairwise-distinct window-boundary pairs. -/
def freshCandle (i : ℕ) (c : ℚ) : Candle :=
  { close := c, timestamp := i, start_time := i, end_time := i }

/-- Candles for windows `(i, i), (i+1, i+1), …` carrying the given closes:
a stream of observations each opening a new window. -/
def freshCandles (i : ℕ) : List ℚ → List Candle
  | [] => []
  | c :: cs => freshCandle i c :: freshCandles (i + 1) cs

/-! ### Algorithm lifecycle service (`Doyen.Algorithms.ScriptManager.py`)

`active_algorithms` is a Python dict `algoId -> AlgorithmContext`;
plugin hooks are external Python calls whose outcome (return value or
raised exception) is carried by `AlgoBehavior`. -/

/-- `AlgorithmState` constants. -/
inductive AlgoState
  | initialized
  | running
  | paused
  | stopped
  deriving Repr, DecidableEq

/-- The outcome of calling a plugin hook: a returned value or a raised
exception carrying its message. -/
inductive Outcome (A : Type)
  | ok (val : A)
  | raises (msg : String)
  deriving Repr, DecidableEq

/-- The externally observable behaviour of a loaded algorithm object:
which optional data hooks `hasattr` finds on it, and the outcome of each
hook call (`Option String` / `Except String _` carry the message of a
raised exception). -/
structure AlgoBehavior where
  has_process_trade : Bool
  has_process_candle : Bool
  has_process_dob : Bool
  trade_raises : Bool
  candle_raises : Bool
  dob_raises : Bool
  start_result : Outcome Bool
  pause_raises : Option String
  resume_raises : Option String
  stop_raises : Option String
  paused : Bool
  deriving Repr, DecidableEq

/-- `AlgorithmContext` from the script manager. -/
structure AlgorithmContext where
  id : String
  name : String
  algorithm : AlgoBehavior
  state : AlgoState
  configuration : Option String
  deriving Repr, DecidableEq

/-- The `active_algorithms` dict. -/
abbrev AlgoRegistry := List (String × AlgorithmContext)

/-- The `{algoId, success, reason}` response shape shared by the
Start/Pause/Resume/Stop RPCs. -/
structure OpResponse where
  algoId : String
  success : Bool
  reason : String
  deriving Repr, DecidableEq

/-- `InitializeAlgorithmResponse`. -/
structure InitializeAlgorithmResponse where
  algoId : String
  success : Bool
  reason : String
  listenDepthOfBook : Bool
  listenTrades : Bool
  listenCandlesticks : Bool
  hasOptionsPanel : Bool
  optionsJsonDataRequest : String
  deriving Repr, DecidableEq

/-- Plugin-hook invocations performed by a lifecycle handler, in order. -/
inductive HookEvent
  | schemaCall (id : String)
  | stopCall (id : String)
  deriving Repr, DecidableEq

/-- The outcome of the module-resolution machinery used by
`InitializeAlgorithm`: whether the script file exists, what
`load_algorithm_from_file` produced, and what
`algorithm.get_options_schema()` does. -/
structure AlgoInitEnv where
  script_found : Bool
  load_result : Option AlgoBehavior
  schema_result : Outcome String
  deriving Repr, DecidableEq

/-- `ScriptServicer.InitializeAlgorithm`.  A fresh context is stored
unconditionally under `request.algoId` (replacing any previous entry);
a schema failure only downgrades the options panel, not the success.
The result also reports the hook invocations made on plugin objects. -/
def InitializeAlgorithm (reg : AlgoRegistry) (algo_id name : String)
    (env : AlgoInitEnv) :
    InitializeAlgorithmResponse × AlgoRegistry × List HookEvent :=
  if env.script_found = false then
    ({ algoId := algo_id, success := false, reason := "Script not found",
       listenDepthOfBook := false, listenTrades := false,
       listenCandlesticks := false, hasOptionsPanel := false,
       optionsJsonDataRequest := "" }, reg, [])
  else
    match env.load_result with
    | none =>
        ({ algoId := algo_id, success := false,
           reason := "Failed to load algorithm",
           listenDepthOfBook := false, listenTrades := false,
           listenCandlesticks := false, hasOptionsPanel := false,
           optionsJsonDataRequest := "" }, reg, [])
    | some algo =>
        let ctx : AlgorithmContext :=
          { id := algo_id, name := name, algorithm := algo,
            state := .initialized, configuration := none }
        let reg1 := aset reg algo_id ctx
        let sm : String × Bool :=
          match env.schema_result with
          | .ok s => (s, s != "")
          | .raises _ => ("", false)
        ({ algoId := algo_id, success := true, reason := "",
           listenDepthOfBook := algo.has_process_dob,
           listenTrades := algo.has_process_trade,
           listenCandlesticks := algo.has_process_candle,
           hasOptionsPanel := sm.2,
           optionsJsonDataRequest := sm.1 }, reg1,
         [HookEvent.schemaCall algo_id])

/-- `ScriptServicer.StartAlgorithm`.  `optionsJson = some j` models a
non-empty `optionsJsonDataResponse` that parses (it is stored as the
context's configuration before `start` is attempted); `none` models an
absent or unparsable document. -/
def StartAlgorithm (reg : AlgoRegistry) (algo_id : String)
    (optionsJson : Option String) : OpResponse × AlgoRegistry :=
  match alookup reg algo_id with
  | none =>
      ({ algoId := algo_id, success := false,
         reason := "Algorithm not initialized" }, reg)
  | some ctx =>
      let ctx1 :=
        match optionsJson with
        | some j => { ctx with configuration := some j }
        | none => ctx
      match ctx1.algorithm.start_result with
      | .raises e =>
          ({ algoId := algo_id, success := false,
             reason := "Error in start function: " ++ e },
           aset reg algo_id ctx1)
      | .ok false =>
          ({ algoId := algo_id, success := false,
             reason := "Algorithm start function returned failure" },
           aset reg algo_id ctx1)
      | .ok true =>
          ({ algoId := algo_id, success := true, reason := "" },
           aset reg algo_id { ctx1 with state := .running })

/-- `ScriptServicer.PauseAlgorithm`. -/
def PauseAlgorithm (reg : AlgoRegistry) (algo_id : String) :
    OpResponse × AlgoRegistry :=
  match alookup reg algo_id with
  | none =>
      ({ algoId := algo_id, success := false,
         reason := "Algorithm not initialized" }, reg)
  | some ctx =>
      match ctx.algorithm.pause_raises with
      | some e =>
          ({ algoId := algo_id, success := false,
             reason := "Error in pause function: " ++ e }, reg)
      | none =>
          ({ algoId := algo_id, success := true, reason := "" },
           aset reg algo_id
             { ctx with state := .paused,
                        algorithm := { ctx.algorithm with paused := true } })

/-- `ScriptServicer.ResumeAlgorithm`. -/
def ResumeAlgorithm (reg : AlgoRegistry) (algo_id : String) :
    OpResponse × AlgoRegistry :=
  match alookup reg algo_id with
  | none =>
      ({ algoId := algo_id, success := false,
         reason := "Algorithm not initialized" }, reg)
  | some ctx =>
      match ctx.algorithm.resume_raises with
      | some e =>
          ({ algoId := algo_id, success := false,
             reason := "Error in resume function: " ++ e }, reg)
      | none =>
          ({ algoId := algo_id, success := true, reason := "" },
           aset reg algo_id
             { ctx with state := .running,
                        algorithm := { ctx.algorithm with paused := false } })

/-- `ScriptServicer.StopAlgorithm`.  The `del active_algorithms[algoId]`
sits *after* `algorithm.stop()` inside the same `try`, so a raising
teardown hook leaves the entry in place and reports failure. -/
def StopAlgorithm (reg : AlgoRegistry) (algo_id : String) :
    OpResponse × AlgoRegistry :=
  match alookup reg algo_id with
  | none =>
      ({ algoId := algo_id, success := false,
         reason := "Algorithm not initialized" }, reg)
  | some ctx =>
      match ctx.algorithm.stop_raises with
      | some e =>
          ({ algoId := algo_id, success := false,
             reason := "Error in stop function: " ++ e }, reg)
      | none =>
          ({ algoId := algo_id, success := true, reason := "[v8.6.0]" },
           adel (aset reg algo_id { ctx with state := .stopped }) algo_id)

/-! ### Data fan-out (`TradeData` / `CandlestickData` / `DepthOfBookData`)

Each handler loops over `active_algorithms`, calls the matching
`process_*` hook on every context whose algorithm `hasattr` it, catches
any per-plugin exception, and finally returns an ack carrying the
request's correlation id.  The fan-out trace records, in iteration order,
each invoked instance id together with whether its hook completed
without raising. -/

/-- The `TradeAck` / `CandlestickAck` / `DepthOfBookAck` shape. -/
structure DataAck where
  id : ℕ
  deriving Repr, DecidableEq

/-- The `for algo_id, algo_context in active_algorithms.items()` loop of
`ScriptServicer.TradeData`. -/
def fanoutTrade : AlgoRegistry → List (String × Bool)
  | [] => []
  | (algo_id, ctx) :: rest =>
    if ctx.algorithm.has_process_trade then
      (algo_id, !ctx.algorithm.trade_raises) :: fanoutTrade rest
    else fanoutTrade rest

/-- `ScriptServicer.TradeData`: fan out, then ack with `request.id`. -/
def TradeData (reg : AlgoRegistry) (request_id : ℕ) :
    DataAck × List (String × Bool) :=
  ({ id := request_id }, fanoutTrade reg)

/-- The loop of `ScriptServicer.CandlestickData`. -/
def fanoutCandle : AlgoRegistry → List (String × Bool)
  | [] => []
  | (algo_id, ctx) :: rest =>
    if ctx.algorithm.has_process_candle then
      (algo_id, !ctx.algorithm.candle_raises) :: fanoutCandle rest
    else fanoutCandle rest

/-- `ScriptServicer.CandlestickData`: fan out, then ack with `request.id`. -/
def CandlestickData (reg : AlgoRegistry) (request_id : ℕ) :
    DataAck × List (String × Bool) :=
  ({ id := request_id }, fanoutCandle reg)

/-- The loop of `ScriptServicer.DepthOfBookData`. -/
def fanoutDob : AlgoRegistry → List (String × Bool)
  | [] => []
  | (algo_id, ctx) :: rest =>
    if ctx.algorithm.has_process_dob then
      (algo_id, !ctx.algorithm.dob_raises) :: fanoutDob rest
    else fanoutDob rest

/-- `ScriptServicer.DepthOfBookData`: fan out, then ack with `request.id`. -/
def DepthOfBookData (reg : AlgoRegistry) (request_id : ℕ) :
    DataAck × List (String × Bool) :=
  ({ id := request_id }, fanoutDob reg)

/-- Rewrite every context's lifecycle state (used to state that fan-out
never consults the state). -/
def setStates (f : String → AlgoState) (reg : AlgoRegistry) : AlgoRegistry :=
  reg.map (fun e => (e.1, { e.2 with state := f e.1 }))

/-! ### Indicator lifecycle service (`Doyen.Indicators.ScriptManager.py`) -/

/-- Outcomes of the hook calls an indicator object can receive. -/
structure IndBehavior where
  start_result : Outcome Bool
  stop_raises : Option String
  deriving Repr, DecidableEq

/-- `IndicatorContext`. -/
structure IndicatorContext where
  id : String
  symbol : String
  name : String
  indicator : IndBehavior
  deriving Repr, DecidableEq

/-- The `active_indicators` dict. -/
abbrev IndRegistry := List (String × IndicatorContext)

/-- The `{id, success, reason}` part of the indicator responses. -/
structure IndOpResponse where
  id : String
  success : Bool
  reason : String
  deriving Repr, DecidableEq

/-- `InitializeIndicatorResponse`. -/
structure InitializeIndicatorResponse where
  id : String
  success : Bool
  reason : String
  hasOptionsPanel : Bool
  optionsJsonDataRequest : String
  deriving Repr, DecidableEq

/-- Environment of `ChartsServicer.initialize_indicator_async`. -/
structure IndInitEnv where
  script_found : Bool
  load_result : Option IndBehavior
  schema_result : Outcome String
  deriving Repr, DecidableEq

/-- `ChartsServicer.initialize_indicator_async`: stores a fresh
`IndicatorContext` under `request.id` unconditionally, replacing any
previous entry; the previous instance receives no hook call. -/
def initialize_indicator_async (reg : IndRegistry)
    (ind_id symbol name : String) (env : IndInitEnv) :
    InitializeIndicatorResponse × IndRegistry × List HookEvent :=
  if env.script_found = false then
    ({ id := ind_id, success := false,
       reason := "Script not found: " ++ name ++ ".py",
       hasOptionsPanel := false, optionsJsonDataRequest := "" }, reg, [])
  else
    match env.load_result with
    | none =>
        ({ id := ind_id, success := false,
           reason := "Failed to load indicator",
           hasOptionsPanel := false, optionsJsonDataRequest := "" }, reg, [])
    | some ind =>
        let ctx : IndicatorContext :=
          { id := ind_id, symbol := symbol, name := name, indicator := ind }
        let reg1 := aset reg ind_id ctx
        let sm : String × Bool :=
          match env.schema_result with
          | .ok s => (s, s != "")
          | .raises _ => ("", false)
        ({ id := ind_id, success := true, reason := "",
           hasOptionsPanel := sm.2, optionsJsonDataRequest := sm.1 }, reg1,
         [HookEvent.schemaCall ind_id])

/-- `ChartsServicer.start_indicator_async` (the part that decides the
response and the registry; publishing the historical results is
projection work on the started indicator). -/
def start_indicator_async (reg : IndRegistry) (ind_id : String) :
    IndOpResponse × IndRegistry :=
  match alookup reg ind_id with
  | none =>
      ({ id := ind_id, success := false,
         reason := "Indicator not initialized" }, reg)
  | some ctx =>
      match ctx.indicator.start_result with
      | .raises e =>
          ({ id := ind_id, success := false,
             reason := "Error in start function: " ++ e }, reg)
      | .ok false =>
          ({ id := ind_id, success := false,
             reason := "Indicator start function returned failure" }, reg)
      | .ok true =>
          ({ id := ind_id, success := true, reason := "" }, reg)

/-- `ChartsServicer.stop_indicator_async`.  As in `StopAlgorithm`, the
`del active_indicators[request.id]` is reached only when
`indicator.stop()` returns without raising. -/
def stop_indicator_async (reg : IndRegistry) (ind_id : String) :
    IndOpResponse × IndRegistry :=
  match alookup reg ind_id with
  | none =>
      ({ id := ind_id, success := false,
         reason := "Indicator not found" }, reg)
  | some ctx =>
      match ctx.indicator.stop_raises with
      | some e =>
          ({ id := ind_id, success := false,
             reason := "Error in stop function: " ++ e }, reg)
      | none =>
          ({ id := ind_id, success := true, reason := "" }, adel reg ind_id)

/-! ### Engine gateway (`Algorithm.py` and `AlgorithmInterface`)

The remote engine stub is modelled by flags saying whether each remote
call raises.  Every gateway function returns the plugin-visible result
(`none` = Python `None`) together with whether the remote stub was
actually invoked. -/

/-- Outcomes of the remote engine's stub calls. -/
structure RemoteEnv where
  sendOrder_raises : Bool
  cancelOrder_raises : Bool
  deriving Repr, DecidableEq

/-- A `SendOrderResponse` from the engine. -/
structure SendOrderResponse where
  algoId : String
  messageId : ℕ
  deriving Repr, DecidableEq

/-- A `CancelOrderResponse` from the engine. -/
structure CancelOrderResponse where
  algoId : String
  messageId : ℕ
  deriving Repr, DecidableEq

/-- `AlgorithmInterface.send_order`.  Inside the `try` it first translates
`order_side`/`order_type` with `.upper()` — which raises (and is caught,
yielding `None` *without* a remote call) when the argument is not a
string — then calls `client.SendOrder`, whose own failure is caught and
yields `None` after the remote call was attempted. -/
def interface_send_order (env : RemoteEnv) (algo_id : String)
    (message_id : ℕ) (side_is_str type_is_str : Bool) :
    Option SendOrderResponse × Bool :=
  if side_is_str = false ∨ type_is_str = false then (none, false)
  else if env.sendOrder_raises then (none, true)
  else (some { algoId := algo_id, messageId := message_id }, true)

/-- `AlgorithmInterface.cancel_order`: builds the request and calls
`client.CancelOrder`; a raising remote call is caught and yields `None`. -/
def interface_cancel_order (env : RemoteEnv) (algo_id : String)
    (message_id : ℕ) : Option CancelOrderResponse × Bool :=
  if env.cancelOrder_raises then (none, true)
  else (some { algoId := algo_id, messageId := message_id }, true)

/-- The fields of an `Algorithm` object that its outbound calls read. -/
structure AlgoSelf where
  algo_id : String
  paused : Bool
  has_interface : Bool
  simulated : Bool
  deriving Repr, DecidableEq

/-- `Algorithm.send_order`: refuses while `self.paused`, refuses without
an interface, otherwise delegates to the interface.  The source passes
`message_id` and `self.simulated` positionally into the interface's
`order_side`/`order_type` slots, so the two translated arguments are not
strings. -/
def Algorithm_send_order (a : AlgoSelf) (env : RemoteEnv)
    (message_id : ℕ) : Option SendOrderResponse × Bool :=
  if a.paused then (none, false)
  else if a.has_interface = false then (none, false)
  else interface_send_order env a.algo_id message_id false false

/-- `Algorithm.cancel_order`: no paused check; delegates to the interface
when one is bound. -/
def Algorithm_cancel_order (a : AlgoSelf) (env : RemoteEnv)
    (message_id : ℕ) : Option CancelOrderResponse × Bool :=
  if a.has_interface = false then (none, false)
  else interface_cancel_order env a.algo_id message_id

/-! ### Plugin loaders (`load_indicator_from_file`,
`load_algorithm_from_file`)

Both loaders resolve a successfully executed module to a plugin instance
with the same three-way preference.  The module is summarized by what the
loader inspects: the `indicator`/`algorithm` attribute (and whether it
passes the `isinstance` check against the base class), the concrete
base-class subclasses found in the module dict, and whether the three
required module-level functions exist. -/

/-- What the loader sees in a successfully executed module. -/
structure PyModule where
  /-- `some b` iff the module has the expected singleton attribute
  (`module.indicator` / `module.algorithm`); `b` records whether it
  passes the `isinstance(…, BaseClass)` check. -/
  singleton_attr : Option Bool
  /-- Names of the concrete base-class subclasses, in module dict order. -/
  subclasses : List String
  has_get_options_schema : Bool
  has_start : Bool
  has_process : Bool
  deriving Repr, DecidableEq

/-- How the loader obtained the plugin instance. -/
inductive LoadedPlugin
  | singletonInstance
  | fromClass (class_name : String)
  | functionWrapper
  deriving Repr, DecidableEq

/-- The resolution cascade shared by `load_indicator_from_file` and
`load_algorithm_from_file`: singleton attribute first, else the first
concrete subclass, else the module-function wrapper when
`get_options_schema`, `start` and `process` all exist, else `None`. -/
def load_plugin_resolution (m : PyModule) : Option LoadedPlugin :=
  if m.singleton_attr = some true then some .singletonInstance
  else
    match m.subclasses with
    | c :: _ => some (.fromClass c)
    | [] =>
        if m.has_get_options_schema && m.has_start && m.has_process then
          some .functionWrapper
        else none

/-- Number of entries of a registry carrying a given key. -/
def countKey {V : Type} (reg : List (String × V)) (k : String) : ℕ :=
  reg.countP (fun e => e.1 == k)

/-! ### Concrete sample data used by the closed witnesses -/

/-- A well-behaved loaded algorithm whose teardown hook has the given
outcome. -/
def sampleAlgo (stopR : Option String) : AlgoBehavior :=
  { has_process_trade := true, has_process_candle := true,
    has_process_dob := false, trade_raises := false, candle_raises := false,
    dob_raises := false, start_result := .ok true, pause_raises := none,
    resume_raises := none, stop_raises := stopR, paused := false }

/-- A registry context for a sample algorithm. -/
def sampleCtx (algo_id : String) (st : AlgoState) (b : AlgoBehavior) :
    AlgorithmContext :=
  { id := algo_id, name := "Scalpbot", algorithm := b, state := st,
    configuration := none }

/-- A well-behaved loaded indicator. -/
def sampleIndB (stopR : Option String) : IndBehavior :=
  { start_result := .ok true, stop_raises := stopR }

/-- A registry context for a sample indicator. -/
def sampleIndCtx (ind_id : String) (b : IndBehavior) : IndicatorContext :=
  { id := ind_id, symbol := "BTC-USD", name := "SMA", indicator := b }

/-- Five registered algorithms; the third one's candle hook raises, the
fifth is paused. -/
def fanoutReg5 : AlgoRegistry :=
  [("p1", sampleCtx "p1" AlgoState.running (sampleAlgo none)),
   ("p2", sampleCtx "p2" AlgoState.running (sampleAlgo none)),
   ("p3", sampleCtx "p3" AlgoState.running
     { sampleAlgo none with candle_raises := true }),
   ("p4", sampleCtx "p4" AlgoState.running (sampleAlgo none)),
   ("p5", sampleCtx "p5" AlgoState.paused (sampleAlgo none))]

/-! ## Helper lemmas about the dict model -/

theorem alookup_append_of_none {K V : Type} [DecidableEq K]
    {l1 : List (K × V)} (l2 : List (K × V)) {k : K}
    (h : alookup l1 k = none) : alookup (l1 ++ l2) k = alookup l2 k := by
  induction l1 with
  | nil => simp
  | cons e rest ih =>
    by_cases hk : e.1 = k
    · simp [alookup, hk] at h
    · simpa [alookup, hk] using ih (by simpa [alookup, hk] using h)

theorem alookup_append_of_some {K V : Type} [DecidableEq K]
    {l1 : List (K × V)} (l2 : List (K × V)) {k : K} {v : V}
    (h : alookup l1 k = some v) : alookup (l1 ++ l2) k = some v := by
  induction l1 with
  | nil => simp [alookup] at h
  | cons e rest ih =>
    by_cases hk : e.1 = k
    · simp [alookup, hk] at h ⊢; exact h
    · simpa [alookup, hk] using ih (by simpa [alookup, hk] using h)

theorem alookup_mem {K V : Type} [DecidableEq K]
    {l : List (K × V)} {k : K} {v : V}
    (h : alookup l k = some v) : (k, v) ∈ l := by
  induction l with
  | nil => simp [alookup] at h
  | cons e rest ih =>
    rcases e with ⟨k1, v1⟩
    by_cases hk : k1 = k
    · subst hk
      simp only [alookup, if_pos rfl] at h
      injection h with h
      subst h
      exact List.mem_cons_self _ _
    · simp only [alookup, if_neg hk] at h
      exact List.mem_cons_of_mem _ (ih h)

theorem alookup_singleton_ne {K V : Type} [DecidableEq K]
    {k k' : K} (v : V) (h : k' ≠ k) : alookup [(k', v)] k = none := by
  simp [alookup, h]

theorem alookup_aset_self {K V : Type} [DecidableEq K]
    (l : List (K × V)) (k : K) (v : V) : alookup (aset l k v) k = some v := by
  induction l with
  | nil => simp [aset, alookup]
  | cons e rest ih =>
    by_cases hk : e.1 = k
    · cases e; simp_all [aset, alookup]
    · cases e; simp_all [aset, alookup]

theorem alookup_adel_self {K V : Type} [DecidableEq K]
    (l : List (K × V)) (k : K) : alookup (adel l k) k = none := by
  induction l with
  | nil => simp [adel, alookup]
  | cons e rest ih =>
    by_cases hk : e.1 = k
    · cases e; simp_all [adel]
    · cases e; simp_all [adel, alookup]

theorem countKey_eq_zero_of_not_mem {V : Type}
    {l : List (String × V)} {k : String}
    (h : k ∉ l.map Prod.fst) : countKey l k = 0 := by
  induction l with
  | nil => simp [countKey]
  | cons e rest ih =>
    simp only [List.map_cons, List.mem_cons] at h
    push_neg at h
    have h1 : ¬ (e.1 = k) := fun hh => h.1 hh.symm
    simp [countKey, List.countP_cons, beq_iff_eq, h1,
      (by simpa [countKey] using ih h.2 : List.countP (fun e => e.1 == k) rest = 0)]

theorem countKey_eq_one_of_nodup {V : Type}
    {l : List (String × V)} {k : String} {v : V}
    (nd : (l.map Prod.fst).Nodup) (h : alookup l k = some v) :
    countKey l k = 1 := by
  induction l with
  | nil => simp [alookup] at h
  | cons e rest ih =>
    simp only [List.map_cons, List.nodup_cons] at nd
    by_cases hk : e.1 = k
    · subst hk
      have : countKey rest e.1 = 0 := countKey_eq_zero_of_not_mem nd.1
      simp [countKey, List.countP_cons] at this ⊢
      exact this
    · simp [alookup, hk] at h
      simpa [countKey, List.countP_cons, hk] using ih nd.2 h

theorem countKey_aset_of_some {V : Type}
    {l : List (String × V)} {k : String} {v : V}
    (h : alookup l k = some v) (w : V) :
    countKey (aset l k w) k = countKey l k := by
  induction l with
  | nil => simp [alookup] at h
  | cons e rest ih =>
    by_cases hk : e.1 = k
    · cases e; simp_all [aset, countKey, List.countP_cons]
    · cases e
      simp only [alookup, hk, if_neg] at h
      simp_all [aset, countKey, List.countP_cons]

/-! ## DataPointIdentity lemmas -/

theorem get_datapoint_id_of_some {s : DataPointState} {a b : ℕ} {i : ℕ}
    (h : alookup s.datapoint_ids (a, b) = some i) :
    get_datapoint_id s a b = (i, s) := by
  simp [get_datapoint_id, h]

theorem get_datapoint_id_self_some (s : DataPointState) (a b : ℕ) :
    alookup (get_datapoint_id s a b).2.datapoint_ids (a, b)
      = some (get_datapoint_id s a b).1 := by
  rcases hl : alookup s.datapoint_ids (a, b) with _ | i
  · simp only [get_datapoint_id, hl]
    rw [alookup_append_of_none _ hl]
    simp [alookup]
  · simp [get_datapoint_id, hl]

theorem runDatapoints_preserves {s : DataPointState} {p : ℕ × ℕ} {i : ℕ}
    (ks : List (ℕ × ℕ)) (h : alookup s.datapoint_ids p = some i) :
    alookup (runDatapoints s ks).datapoint_ids p = some i := by
  induction ks generalizing s with
  | nil => simpa [runDatapoints] using h
  | cons k rest ih =>
    simp only [runDatapoints]
    apply ih
    rcases hl : alookup s.datapoint_ids (k.1, k.2) with _ | j
    · simp only [get_datapoint_id, hl]
      exact alookup_append_of_some _ h
    · simpa [get_datapoint_id, hl] using h

theorem runDatapoints_next_le (s : DataPointState) (ks : List (ℕ × ℕ)) :
    s.next_datapoint_id ≤ (runDatapoints s ks).next_datapoint_id := by
  induction ks generalizing s with
  | nil => simp [runDatapoints]
  | cons k rest ih =>
    simp only [runDatapoints]
    refine le_trans ?_ (ih _)
    rcases hl : alookup s.datapoint_ids (k.1, k.2) with _ | j
    · simp [get_datapoint_id, hl]
    · simp [get_datapoint_id, hl]

theorem runDatapoints_bound {s : DataPointState}
    (ks : List (ℕ × ℕ))
    (h : ∀ p i, (p, i) ∈ s.datapoint_ids → i < s.next_datapoint_id) :
    ∀ p i, (p, i) ∈ (runDatapoints s ks).datapoint_ids →
      i < (runDatapoints s ks).next_datapoint_id := by
  induction ks generalizing s with
  | nil => simpa [runDatapoints] using h
  | cons k rest ih =>
    simp only [runDatapoints]
    apply ih
    rcases hl : alookup s.datapoint_ids (k.1, k.2) with _ | j
    · simp only [get_datapoint_id, hl]
      intro p i hm
      simp only [List.mem_append, List.mem_singleton] at hm
      rcases hm with hm | hm
      · exact lt_trans (h p i hm) (Nat.lt_succ_self _)
      · cases hm
        simp_all
    · simpa [get_datapoint_id, hl] using h

theorem runDatapoints_absent {s : DataPointState} {p : ℕ × ℕ}
    {ks : List (ℕ × ℕ)}
    (h : alookup s.datapoint_ids p = none) (hp : p ∉ ks) :
    alookup (runDatapoints s ks).datapoint_ids p = none := by
  induction ks generalizing s with
  | nil => simpa [runDatapoints] using h
  | cons k rest ih =>
    simp only [List.mem_cons] at hp
    push_neg at hp
    simp only [runDatapoints]
    apply ih _ hp.2
    rcases hl : alookup s.datapoint_ids (k.1, k.2) with _ | j
    · simp only [get_datapoint_id, hl]
      rw [alookup_append_of_none _ h]
      exact alookup_singleton_ne _ (by
        intro hc
        exact hp.1 (by rw [← hc]))
    · simpa [get_datapoint_id, hl] using h

theorem runDatapoints_mem_isSome {s : DataPointState} {p : ℕ × ℕ}
    {ks : List (ℕ × ℕ)} (hp : p ∈ ks) :
    (alookup (runDatapoints s ks).datapoint_ids p).isSome := by
  induction ks generalizing s with
  | nil => simp at hp
  | cons k rest ih =>
    rcases List.mem_cons.mp hp with h | h
    · subst h
      simp only [runDatapoints]
      have hs := get_datapoint_id_self_some s p.1 p.2
      by_cases hr : p ∈ rest
      · exact ih hr
      · rw [runDatapoints_preserves rest (by simpa using hs)]
        simp
    · simp only [runDatapoints]
      exact ih h

theorem runDatapoints_append (s : DataPointState) (l1 l2 : List (ℕ × ℕ)) :
    runDatapoints s (l1 ++ l2) = runDatapoints (runDatapoints s l1) l2 := by
  induction l1 generalizing s with
  | nil => simp [runDatapoints]
  | cons k rest ih =>
    simp only [List.cons_append, runDatapoints]
    exact ih _

end Doyen

namespace Doyen

/-! ## SMA run lemmas

A "fresh" observation opens window `(k, k)` that the indicator has never
seen; from the state reached after `k` such observations the next call to
`process` appends both the price and the produced record. -/

theorem SMAprocess_fresh_invalid
    (s : SMAState) (k : ℕ) (c : ℚ)
    (hnext : s.dp.next_datapoint_id = k + 1)
    (hplen : s.historical_prices.length = k)
    (hkW : k < s.sma_period)
    (hfresh : alookup s.dp.datapoint_ids (k, k) = none) :
    SMAprocess s [freshCandle k c] =
      (some { label := "SMA", timestamp := k, type := 2, value := c,
              r := s.default_color.1, g := s.default_color.2.1,
              b := s.default_color.2.2,
              start_time := k, end_time := k, dataPointId := k + 1 },
       { s with
         historical_prices := s.historical_prices ++ [c],
         historical_results := s.historical_results ++
           [{ label := "SMA", timestamp := k, type := 2, value := c,
              r := s.default_color.1, g := s.default_color.2.1,
              b := s.default_color.2.2,
              start_time := k, end_time := k, dataPointId := k + 1 }],
         dp := { datapoint_ids := s.dp.datapoint_ids ++ [((k, k), k + 1)],
                 next_datapoint_id := k + 2 } }) := by
  have hkmax : ¬ (k > max (s.sma_period * 3) 100) := by omega
  have hne : ((k + 1 - 1 : ℕ) != k + 1) = true := by
    simp [bne_iff_ne]
  simp only [SMAprocess, freshCandle, hplen, hnext, get_datapoint_id, hfresh,
    if_neg hkmax, if_pos hkW, hne, if_pos, Nat.add_sub_cancel]
  simp

theorem SMAprocess_fresh_valid
    (s : SMAState) (k : ℕ) (c : ℚ)
    (hnext : s.dp.next_datapoint_id = k + 1)
    (hplen : s.historical_prices.length = k)
    (hkW : s.sma_period ≤ k)
    (hkmax : k ≤ max (s.sma_period * 3) 100)
    (hres : s.historical_results ≠ [])
    (hfresh : alookup s.dp.datapoint_ids (k, k) = none) :
    ∃ rec,
      SMAprocess s [freshCandle k c] =
        (some rec,
         { s with
           historical_prices := s.historical_prices ++ [c],
           historical_results := s.historical_results ++ [rec],
           dp := { datapoint_ids := s.dp.datapoint_ids ++ [((k, k), k + 1)],
                   next_datapoint_id := k + 2 } })
      ∧ ((rec.r, rec.g, rec.b) = s.up_color
         ∨ (rec.r, rec.g, rec.b) = s.down_color) := by
  have hkmax2 : ¬ (k > max (s.sma_period * 3) 100) := by omega
  have hklt : ¬ (k < s.sma_period) := by omega
  have hne : ((k : ℕ) != k + 1) = true := by
    simp
  obtain ⟨prev, hprev⟩ := Option.isSome_iff_exists.mp
    (List.getLast?_isSome.mpr hres)
  rcases le_or_lt prev.value
      (((s.historical_prices ++ [c]).drop
          (k + 1 - s.sma_period)).sum /
        (s.sma_period : ℚ)) with hcmp | hcmp
  · have hrec : SMAprocess s [freshCandle k c] =
        (some { label := "SMA", timestamp := k, type := 2,
                value := ((s.historical_prices ++ [c]).drop
                    (k + 1 - s.sma_period)).sum / (s.sma_period : ℚ),
                r := s.up_color.1, g := s.up_color.2.1, b := s.up_color.2.2,
                start_time := k, end_time := k, dataPointId := k + 1 },
         { s with
           historical_prices := s.historical_prices ++ [c],
           historical_results := s.historical_results ++
             [{ label := "SMA", timestamp := k, type := 2,
                value := ((s.historical_prices ++ [c]).drop
                    (k + 1 - s.sma_period)).sum / (s.sma_period : ℚ),
                r := s.up_color.1, g := s.up_color.2.1, b := s.up_color.2.2,
                start_time := k, end_time := k, dataPointId := k + 1 }],
           dp := { datapoint_ids := s.dp.datapoint_ids ++ [((k, k), k + 1)],
                   next_datapoint_id := k + 2 } }) := by
      simp only [SMAprocess, freshCandle, hplen, hnext, get_datapoint_id,
        hfresh, if_neg hkmax2, if_neg hklt, Nat.add_sub_cancel, hprev,
        calculate_sma]
      simp only [hne, if_true, ite_true, List.length_append,
        List.length_cons, List.length_nil, hplen]
      rw [if_neg (by omega : ¬ (k + 1 < s.sma_period))]
      simp only [Option.getD_some]
      rw [if_pos hcmp]
      simp
    exact ⟨_, hrec, Or.inl rfl⟩
  · have hrec : SMAprocess s [freshCandle k c] =
        (some { label := "SMA", timestamp := k, type := 2,
                value := ((s.historical_prices ++ [c]).drop
                    (k + 1 - s.sma_period)).sum / (s.sma_period : ℚ),
                r := s.down_color.1, g := s.down_color.2.1,
                b := s.down_color.2.2,
                start_time := k, end_time := k, dataPointId := k + 1 },
         { s with
           historical_prices := s.historical_prices ++ [c],
           historical_results := s.historical_results ++
             [{ label := "SMA", timestamp := k, type := 2,
                value := ((s.historical_prices ++ [c]).drop
                    (k + 1 - s.sma_period)).sum / (s.sma_period : ℚ),
                r := s.down_color.1, g := s.down_color.2.1,
                b := s.down_color.2.2,
                start_time := k, end_time := k, dataPointId := k + 1 }],
           dp := { datapoint_ids := s.dp.datapoint_ids ++ [((k, k), k + 1)],
                   next_datapoint_id := k + 2 } }) := by
      simp only [SMAprocess, freshCandle, hplen, hnext, get_datapoint_id,
        hfresh, if_neg hkmax2, if_neg hklt, Nat.add_sub_cancel, hprev,
        calculate_sma]
      simp only [hne, if_true, ite_true, List.length_append,
        List.length_cons, List.length_nil, hplen]
      rw [if_neg (by omega : ¬ (k + 1 < s.sma_period))]
      simp only [Option.getD_some]
      rw [if_neg (not_le_of_lt hcmp)]
      simp
    exact ⟨_, hrec, Or.inr rfl⟩

theorem runSMA_fresh_spec
    (W : ℕ) (hW : 1 ≤ W) (up down dflt : Color) :
    ∀ (closes : List ℚ) (k : ℕ) (s : SMAState),
      s.sma_period = W → s.up_color = up → s.down_color = down →
      s.default_color = dflt →
      s.dp.next_datapoint_id = k + 1 →
      s.historical_prices.length = k →
      s.historical_results.length = k →
      (∀ j, k ≤ j → alookup s.dp.datapoint_ids (j, j) = none) →
      k + closes.length ≤ W + 1 →
      ∀ i rec,
        (runSMA s (freshCandles k closes)).1.get? i = some (some rec) →
        (k + i < W → (rec.r, rec.g, rec.b) = dflt)
        ∧ (k + i = W →
           (rec.r, rec.g, rec.b) = up ∨ (rec.r, rec.g, rec.b) = down) := by
  intro closes
  induction closes with
  | nil =>
    intro k s _ _ _ _ _ _ _ _ _ i rec hget
    simp [freshCandles, runSMA] at hget
  | cons c cs ih =>
    intro k s hper hup hdown hdflt hnext hplen hrlen hfresh hbound i rec hget
    simp only [List.length_cons] at hbound
    have hkW : k ≤ W := by omega
    rcases lt_or_eq_of_le hkW with hklt | hkeq
    · have hstep := SMAprocess_fresh_invalid s k c hnext hplen
        (by rw [hper]; exact hklt) (hfresh k le_rfl)
      cases i with
      | zero =>
        simp only [freshCandles, runSMA, hstep, List.get?] at hget
        injection hget with hget
        injection hget with hget
        subst hget
        refine ⟨fun _ => ?_, fun h => absurd h (by omega)⟩
        simp [hdflt]
      | succ i' =>
        simp only [freshCandles, runSMA, hstep, List.get?] at hget
        have hnew : ∀ j, k + 1 ≤ j →
            alookup (s.dp.datapoint_ids ++ [((k, k), k + 1)]) (j, j)
              = none := by
          intro j hj
          rw [alookup_append_of_none _ (hfresh j (by omega))]
          refine alookup_singleton_ne _ fun hcon => ?_
          have : k = j := congrArg Prod.fst hcon
          omega
        have hres := ih (k + 1)
          ({ s with
             historical_prices := s.historical_prices ++ [c],
             historical_results := s.historical_results ++
               [{ label := "SMA", timestamp := k, type := 2, value := c,
                  r := s.default_color.1, g := s.default_color.2.1,
                  b := s.default_color.2.2, start_time := k, end_time := k,
                  dataPointId := k + 1 }],
             dp := { datapoint_ids :=
                       s.dp.datapoint_ids ++ [((k, k), k + 1)],
                     next_datapoint_id := k + 2 } })
          hper hup hdown hdflt rfl (by simp [hplen]) (by simp [hrlen]) hnew
          (by omega) i' rec hget
        exact ⟨fun h => hres.1 (by omega), fun h => hres.2 (by omega)⟩
    · have hcs : cs = [] := List.length_eq_zero.mp (by omega)
      subst hcs
      have hres0 : s.historical_results ≠ [] := by
        intro hnil
        rw [hnil] at hrlen
        simp at hrlen
        omega
      obtain ⟨rec0, hstep, hcol⟩ := SMAprocess_fresh_valid s k c hnext hplen
        (by rw [hper]; omega) (by rw [hper]; omega) hres0 (hfresh k le_rfl)
      cases i with
      | zero =>
        simp only [freshCandles, runSMA, hstep, List.get?] at hget
        injection hget with hget
        injection hget with hget
        subst hget
        refine ⟨fun h => absurd h (by omega), fun _ => ?_⟩
        rw [hup, hdown] at hcol
        exact hcol
      | succ i' =>
        simp only [freshCandles, runSMA, hstep, List.get?] at hget
        simp [runSMA] at hget

/-! ## Claim theorems -/

/-- C4: for every plugin instance and every sequence of window-boundary
pairs presented to `get_datapoint_id`, requesting the identity of the same
boundary pair twice returns the same integer both times, and for two
distinct pairs A then B first observed in that order, the identity
assigned to A is strictly less than the identity assigned to B. -/
theorem datapoint_identity_claim :
    (∀ (s : DataPointState) (p : ℕ × ℕ),
      (get_datapoint_id (get_datapoint_id s p.1 p.2).2 p.1 p.2).1
        = (get_datapoint_id s p.1 p.2).1)
    ∧ (∀ (ks1 ks2 : List (ℕ × ℕ)) (A B : ℕ × ℕ),
      A ∈ ks1 → B ∉ ks1 → B ∉ ks2 →
      (alookup (runDatapoints initDataPoints (ks1 ++ ks2)).datapoint_ids
          A).isSome
      ∧ ∀ ia,
          alookup (runDatapoints initDataPoints (ks1 ++ ks2)).datapoint_ids A
            = some ia →
          (get_datapoint_id (runDatapoints initDataPoints (ks1 ++ ks2))
              A.1 A.2).1 = ia
          ∧ ia < (get_datapoint_id (runDatapoints initDataPoints (ks1 ++ ks2))
              B.1 B.2).1) := by
  constructor
  · intro s p
    have h := get_datapoint_id_self_some s p.1 p.2
    rw [get_datapoint_id_of_some h]
  · intro ks1 ks2 A B hA hB1 hB2
    set s := runDatapoints initDataPoints (ks1 ++ ks2) with hs
    have hsplit : s = runDatapoints (runDatapoints initDataPoints ks1) ks2 := by
      rw [hs, runDatapoints_append]
    have hAsome : (alookup (runDatapoints initDataPoints ks1).datapoint_ids
        A).isSome := runDatapoints_mem_isSome hA
    obtain ⟨ia0, hia0⟩ := Option.isSome_iff_exists.mp hAsome
    have hAs : alookup s.datapoint_ids A = some ia0 := by
      rw [hsplit]
      exact runDatapoints_preserves ks2 hia0
    refine ⟨by rw [hAs]; simp, ?_⟩
    intro ia hia
    rw [hAs] at hia
    injection hia with hia
    subst hia
    have hAs' : alookup s.datapoint_ids (A.1, A.2) = some ia0 := by
      simpa using hAs
    refine ⟨by rw [get_datapoint_id_of_some hAs'], ?_⟩
    have hBnone : alookup s.datapoint_ids B = none := by
      rw [hs]
      exact runDatapoints_absent (by simp [initDataPoints, alookup])
        (by simp [hB1, hB2])
    have hBnone' : alookup s.datapoint_ids (B.1, B.2) = none := by
      simpa using hBnone
    have hb := runDatapoints_bound (s := initDataPoints) (ks1 ++ ks2)
      (by intro p i hm; simp [initDataPoints] at hm) A ia0 (alookup_mem hAs)
    simpa [get_datapoint_id, hBnone'] using hb

/-- Witness for C4 at a concrete request sequence: pair (3,4) observed
first gets id 1, and a later first observation of (9,9) gets a larger id. -/
theorem datapoint_identity_claim_witness :
    (get_datapoint_id (runDatapoints initDataPoints
        ([((3:ℕ),(4:ℕ)), (5,7)] ++ [])) 3 4).1 = 1
    ∧ 1 < (get_datapoint_id (runDatapoints initDataPoints
        ([((3:ℕ),(4:ℕ)), (5,7)] ++ [])) 9 9).1 := by
  have h := (datapoint_identity_claim.2 [(3,4),(5,7)] [] (3,4) (9,9)
    (by decide) (by decide) (by decide)).2 1 (by decide)
  exact ⟨h.1, h.2⟩

end Doyen

namespace Doyen

/-- C2 (amended): with lookback window W, every one of the first W fresh
observations fed to a freshly started SMA indicator yields a record
carrying the sentinel/default colour (in particular, fewer than W
observations never produce a valid record — and neither does the W-th,
because `valid_sma` is decided on the price list before the new close is
appended); the (W+1)-th observation is the first one that can produce a
valid, up/down-coloured record. -/
theorem claim_lookback_amended (W : ℕ) (up down dflt : Color)
    (closes : List ℚ) (hW : 1 ≤ W) (hlen : closes.length ≤ W + 1) :
    ∀ i rec,
      (runSMA (SMAstarted W up down dflt)
          (freshCandles 0 closes)).1.get? i = some (some rec) →
      (i < W → (rec.r, rec.g, rec.b) = dflt)
      ∧ (i = W →
         (rec.r, rec.g, rec.b) = up ∨ (rec.r, rec.g, rec.b) = down) := by
  intro i rec hget
  have h := runSMA_fresh_spec W hW up down dflt closes 0
    (SMAstarted W up down dflt) rfl rfl rfl rfl rfl rfl rfl
    (fun j _ => rfl) (by simpa using hlen) i rec hget
  simpa using h

/-- Witness for C2 (amended) at W = 2: the second (W-th) observation's
record still carries the default colour (128,128,255). -/
theorem claim_lookback_amended_witness :
    (runSMA (SMAstarted 2 (0,255,0) (255,0,0) (128,128,255))
        (freshCandles 0 [(1:ℚ),2,3])).1.get? 1
      = some (some { label := "SMA", timestamp := 1, type := 2, value := 2, r := 128, g := 128, b := 255, start_time := 1, end_time := 1, dataPointId := 2 })
    ∧ (((128:ℕ), (128:ℕ), (255:ℕ)) = ((128:ℕ),128,255)) := by
  have hg : (runSMA (SMAstarted 2 (0,255,0) (255,0,0) (128,128,255))
        (freshCandles 0 [(1:ℚ),2,3])).1.get? 1
      = some (some { label := "SMA", timestamp := 1, type := 2, value := 2, r := 128, g := 128, b := 255, start_time := 1, end_time := 1, dataPointId := 2 }) := by
    norm_num [runSMA, SMAprocess, SMAstarted, initDataPoints,
      get_datapoint_id, alookup, calculate_sma, freshCandles, freshCandle,
      Prod.mk.injEq, List.drop, List.sum_cons, List.sum_nil,
      -Prod.mk_zero_zero, -Prod.mk_one_one]
  refine ⟨hg, ?_⟩
  have h := (claim_lookback_amended 2 (0,255,0) (255,0,0) (128,128,255)
    [1,2,3] (by norm_num) (by norm_num) 1 _ hg).1 (by norm_num)
  exact h

/-- Counterexample to C2 as stated: with W = 2, in the run on closes
1, 2, 3 over fresh windows, the record of the 2nd (= W-th) observation
carries the sentinel colour (128,128,255) — it is not valid — while the
3rd (= (W+1)-th) observation's record is the first coloured up/down.
The W-th observation is therefore not the first one allowed to produce a
valid result; the first valid record appears only at observation W+1. -/
theorem claim_lookback_cex :
    ((runSMA (SMAstarted 2 (0,255,0) (255,0,0) (128,128,255))
        (freshCandles 0 [(1:ℚ),2,3])).1.map
      (fun o => o.map (fun rec => (rec.r, rec.g, rec.b))))
    = [some ((128:ℕ),128,255), some (128,128,255), some (0,255,0)] := by
  norm_num [runSMA, SMAprocess, SMAstarted, initDataPoints, get_datapoint_id,
    alookup, calculate_sma, freshCandles, freshCandle, Prod.mk.injEq,
    List.drop, List.sum_cons, List.sum_nil,
    -Prod.mk_zero_zero, -Prod.mk_one_one]

/-- C3 (amended): a repeated observation of the most recent window (same
DataPointIdentity as the last assigned one) leaves the published result
history with exactly one record for that window when the new value is
valid — the history is not changed at all, so the stored record keeps the
*first* observation's value and the second observation's recomputed value
is only returned, not stored — while an invalid repeated observation is
always appended as a new (default-coloured) record. -/
theorem claim_repeat_window_amended
    (s : SMAState) (c : Candle) (i : ℕ)
    (hmem : alookup s.dp.datapoint_ids (c.start_time, c.end_time) = some i)
    (hnext : s.dp.next_datapoint_id = i + 1)
    (hi : 1 ≤ i) :
    (s.sma_period ≤ s.historical_prices.length →
      (SMAprocess s [c]).2.historical_results = s.historical_results)
    ∧ (s.historical_prices.length < s.sma_period →
      (SMAprocess s [c]).2.historical_results
        = s.historical_results ++
          [{ label := "SMA", timestamp := c.timestamp, type := 2,
             value := c.close,
             r := s.default_color.1, g := s.default_color.2.1,
             b := s.default_color.2.2,
             start_time := c.start_time, end_time := c.end_time,
             dataPointId := i }]) := by
  constructor
  · intro hlen
    by_cases htrim :
        s.historical_prices.length > max (s.sma_period * 3) 100
    · simp only [SMAprocess, get_datapoint_id, hmem, hnext,
        Nat.add_sub_cancel, if_pos htrim]
      simp [bne_self_eq_false, show ¬ i ≤ 0 by omega]
    · have hnlt : ¬ s.historical_prices.length < s.sma_period := by omega
      simp only [SMAprocess, get_datapoint_id, hmem, hnext,
        Nat.add_sub_cancel, if_neg htrim, if_neg hnlt]
      simp [bne_self_eq_false, show ¬ i ≤ 0 by omega]
  · intro hlen
    have htrim :
        ¬ s.historical_prices.length > max (s.sma_period * 3) 100 := by
      omega
    simp only [SMAprocess, get_datapoint_id, hmem, hnext,
      Nat.add_sub_cancel, if_neg htrim, if_pos hlen]
    simp [bne_self_eq_false]

end Doyen

namespace Doyen

/-- Witness for C3 (amended): after two fresh observations with W = 1, a
repeated (valid) observation of window (1,1) leaves the result history
unchanged. -/
theorem claim_repeat_window_amended_witness :
    (1:ℕ) ≤ 2
    ∧ (SMAprocess
        (runSMA (SMAstarted 1 (0,255,0) (255,0,0) (128,128,255))
          [freshCandle 0 10, freshCandle 1 20]).2
        [{ close := 30, timestamp := 2, start_time := 1, end_time := 1 }]).2.historical_results
      = (runSMA (SMAstarted 1 (0,255,0) (255,0,0) (128,128,255))
          [freshCandle 0 10, freshCandle 1 20]).2.historical_results := by
  refine ⟨by norm_num, ?_⟩
  exact (claim_repeat_window_amended _ _ 2 (by decide) (by decide)
    (by norm_num)).1 (by decide)

/-- Counterexample to C3 as stated: with W = 1, feed window (0,0) close
10, window (1,1) close 20, then window (1,1) again close 30 (both
observations of (1,1) valid).  The published history keeps exactly one
record for window 2 — but its value is 20, the *first* observation's
value, while the second observation's computed value 30 is only returned
by `process`, never written into the stored record. -/
theorem claim_repeat_window_cex :
    ((runSMA (SMAstarted 1 (0,255,0) (255,0,0) (128,128,255))
        [freshCandle 0 10, freshCandle 1 20,
         { close := 30, timestamp := 2, start_time := 1, end_time := 1 }]).2.historical_results.map
      (fun rec => (rec.dataPointId, rec.value)))
      = [(1, (10:ℚ)), (2, 20)]
    ∧ ((runSMA (SMAstarted 1 (0,255,0) (255,0,0) (128,128,255))
        [freshCandle 0 10, freshCandle 1 20,
         { close := 30, timestamp := 2, start_time := 1, end_time := 1 }]).1.get? 2
      = some (some { label := "SMA", timestamp := 2, type := 2, value := 30, r := 0, g := 255, b := 0, start_time := 1, end_time := 1, dataPointId := 2 })) := by
  constructor
  · norm_num [runSMA, SMAprocess, SMAstarted, initDataPoints,
      get_datapoint_id, alookup, calculate_sma, freshCandle,
      Prod.mk.injEq, List.drop, List.sum_cons, List.sum_nil,
      -Prod.mk_zero_zero, -Prod.mk_one_one]
  · norm_num [runSMA, SMAprocess, SMAstarted, initDataPoints,
      get_datapoint_id, alookup, calculate_sma, freshCandle,
      Prod.mk.injEq, List.drop, List.sum_cons, List.sum_nil,
      -Prod.mk_zero_zero, -Prod.mk_one_one]

end Doyen

namespace Doyen

/-! ## Fan-out helper lemmas -/

theorem fanoutTrade_map_fst (reg : AlgoRegistry) :
    (fanoutTrade reg).map Prod.fst
      = (reg.filter (fun e => e.2.algorithm.has_process_trade)).map
          Prod.fst := by
  induction reg with
  | nil => rfl
  | cons e rest ih =>
    rcases e with ⟨aid, ctx⟩
    by_cases h : ctx.algorithm.has_process_trade <;>
      simp [fanoutTrade, h, ih, List.filter_cons]

theorem fanoutCandle_map_fst (reg : AlgoRegistry) :
    (fanoutCandle reg).map Prod.fst
      = (reg.filter (fun e => e.2.algorithm.has_process_candle)).map
          Prod.fst := by
  induction reg with
  | nil => rfl
  | cons e rest ih =>
    rcases e with ⟨aid, ctx⟩
    by_cases h : ctx.algorithm.has_process_candle <;>
      simp [fanoutCandle, h, ih, List.filter_cons]

theorem fanoutDob_map_fst (reg : AlgoRegistry) :
    (fanoutDob reg).map Prod.fst
      = (reg.filter (fun e => e.2.algorithm.has_process_dob)).map
          Prod.fst := by
  induction reg with
  | nil => rfl
  | cons e rest ih =>
    rcases e with ⟨aid, ctx⟩
    by_cases h : ctx.algorithm.has_process_dob <;>
      simp [fanoutDob, h, ih, List.filter_cons]

theorem filter_map_fst_count_eq_one
    (reg : AlgoRegistry) (p : String × AlgorithmContext → Bool)
    {e : String × AlgorithmContext}
    (he : e ∈ reg) (nd : (reg.map Prod.fst).Nodup) (hp : p e = true) :
    (((reg.filter p).map Prod.fst).count e.1) = 1 := by
  have h1 : ((reg.filter p).map Prod.fst).Sublist (reg.map Prod.fst) :=
    (List.filter_sublist reg).map Prod.fst
  have h2 : e.1 ∈ (reg.filter p).map Prod.fst :=
    List.mem_map_of_mem Prod.fst (List.mem_filter.mpr ⟨he, hp⟩)
  exact List.count_eq_one_of_mem (nd.sublist h1) h2

theorem fanoutTrade_setStates (f : String → AlgoState) (reg : AlgoRegistry) :
    fanoutTrade (setStates f reg) = fanoutTrade reg := by
  induction reg with
  | nil => rfl
  | cons e rest ih =>
    rcases e with ⟨aid, ctx⟩
    by_cases h : ctx.algorithm.has_process_trade <;>
      simp [fanoutTrade, setStates, h, ih] <;>
      simpa [setStates] using ih

theorem fanoutCandle_setStates (f : String → AlgoState) (reg : AlgoRegistry) :
    fanoutCandle (setStates f reg) = fanoutCandle reg := by
  induction reg with
  | nil => rfl
  | cons e rest ih =>
    rcases e with ⟨aid, ctx⟩
    by_cases h : ctx.algorithm.has_process_candle <;>
      simp [fanoutCandle, setStates, h, ih] <;>
      simpa [setStates] using ih

theorem fanoutDob_setStates (f : String → AlgoState) (reg : AlgoRegistry) :
    fanoutDob (setStates f reg) = fanoutDob reg := by
  induction reg with
  | nil => rfl
  | cons e rest ih =>
    rcases e with ⟨aid, ctx⟩
    by_cases h : ctx.algorithm.has_process_dob <;>
      simp [fanoutDob, setStates, h, ih] <;>
      simpa [setStates] using ih

end Doyen

namespace Doyen

/-- C1 (amended): a Stop call on a registered instance removes the
registry entry exactly when the plugin's own teardown hook completes
without raising; when the hook raises, the handler catches the exception,
reports success:false, and the entry is retained (the `del` sits after
the hook call inside the same try-block), in both the algorithms and the
indicators service. -/
theorem claim_stop_removal_amended
    (reg : AlgoRegistry) (algo_id : String) (ctx : AlgorithmContext)
    (ireg : IndRegistry) (ind_id : String) (ictx : IndicatorContext)
    (hc : alookup reg algo_id = some ctx)
    (hic : alookup ireg ind_id = some ictx) :
    ((ctx.algorithm.stop_raises = none →
       (StopAlgorithm reg algo_id).1.success = true
       ∧ alookup (StopAlgorithm reg algo_id).2 algo_id = none)
     ∧ (∀ e, ctx.algorithm.stop_raises = some e →
       (StopAlgorithm reg algo_id).1.success = false
       ∧ (StopAlgorithm reg algo_id).2 = reg))
    ∧ ((ictx.indicator.stop_raises = none →
       (stop_indicator_async ireg ind_id).1.success = true
       ∧ alookup (stop_indicator_async ireg ind_id).2 ind_id = none)
     ∧ (∀ e, ictx.indicator.stop_raises = some e →
       (stop_indicator_async ireg ind_id).1.success = false
       ∧ (stop_indicator_async ireg ind_id).2 = ireg)) := by
  refine ⟨⟨?_, ?_⟩, ?_, ?_⟩
  · intro h
    simp [StopAlgorithm, hc, h, alookup_adel_self]
  · intro e h
    simp [StopAlgorithm, hc, h]
  · intro h
    simp [stop_indicator_async, hic, h, alookup_adel_self]
  · intro e h
    simp [stop_indicator_async, hic, h]

/-- Witness for C1 (amended): a clean teardown removes the entry in both
services. -/
theorem claim_stop_removal_amended_witness :
    ((StopAlgorithm [("a1", sampleCtx "a1" AlgoState.running (sampleAlgo none))] "a1").1.success = true
     ∧ alookup (StopAlgorithm [("a1", sampleCtx "a1" AlgoState.running (sampleAlgo none))] "a1").2 "a1" = none)
    ∧ ((stop_indicator_async [("i1", sampleIndCtx "i1" (sampleIndB none))] "i1").1.success = true
     ∧ alookup (stop_indicator_async [("i1", sampleIndCtx "i1" (sampleIndB none))] "i1").2 "i1" = none) := by
  have h := claim_stop_removal_amended
    [("a1", sampleCtx "a1" AlgoState.running (sampleAlgo none))] "a1"
    (sampleCtx "a1" AlgoState.running (sampleAlgo none))
    [("i1", sampleIndCtx "i1" (sampleIndB none))] "i1"
    (sampleIndCtx "i1" (sampleIndB none)) (by decide) (by decide)
  exact ⟨h.1.1 (by decide), h.2.1 (by decide)⟩

/-- Counterexample to C1 as stated: when the teardown hook raises, the
Stop handler returns success:false and the registry entry is *not*
removed — the instance "a1" is still registered afterwards. -/
theorem claim_stop_removal_cex :
    (StopAlgorithm [("a1", sampleCtx "a1" AlgoState.running (sampleAlgo (some "boom")))] "a1").1.success = false
    ∧ (alookup (StopAlgorithm [("a1", sampleCtx "a1" AlgoState.running (sampleAlgo (some "boom")))] "a1").2 "a1").isSome = true := by
  decide

/-- C5 (amended): Start/Pause/Resume/Stop on a never-initialized id
return success:false and leave the registry unchanged (no entry is
created); the failure reasons are "Algorithm not initialized"
(algorithms service), "Indicator not initialized" (indicator Start) and
"Indicator not found" (indicator Stop) — the last one does not mention
"not initialized". -/
theorem claim_unknown_id_amended
    (reg : AlgoRegistry) (ireg : IndRegistry) (algo_id ind_id : String)
    (optionsJson : Option String)
    (h : alookup reg algo_id = none) (hi : alookup ireg ind_id = none) :
    StartAlgorithm reg algo_id optionsJson
      = ({ algoId := algo_id, success := false, reason := "Algorithm not initialized" }, reg)
    ∧ PauseAlgorithm reg algo_id
      = ({ algoId := algo_id, success := false, reason := "Algorithm not initialized" }, reg)
    ∧ ResumeAlgorithm reg algo_id
      = ({ algoId := algo_id, success := false, reason := "Algorithm not initialized" }, reg)
    ∧ StopAlgorithm reg algo_id
      = ({ algoId := algo_id, success := false, reason := "Algorithm not initialized" }, reg)
    ∧ start_indicator_async ireg ind_id
      = ({ id := ind_id, success := false, reason := "Indicator not initialized" }, ireg)
    ∧ stop_indicator_async ireg ind_id
      = ({ id := ind_id, success := false, reason := "Indicator not found" }, ireg) := by
  refine ⟨?_, ?_, ?_, ?_, ?_, ?_⟩ <;>
    simp [StartAlgorithm, PauseAlgorithm, ResumeAlgorithm, StopAlgorithm,
      start_indicator_async, stop_indicator_async, h, hi]

/-- Witness for C5 (amended) on empty registries and id "x". -/
theorem claim_unknown_id_amended_witness :
    StartAlgorithm [] "x" none
      = ({ algoId := "x", success := false, reason := "Algorithm not initialized" }, [])
    ∧ PauseAlgorithm [] "x"
      = ({ algoId := "x", success := false, reason := "Algorithm not initialized" }, [])
    ∧ ResumeAlgorithm [] "x"
      = ({ algoId := "x", success := false, reason := "Algorithm not initialized" }, [])
    ∧ StopAlgorithm [] "x"
      = ({ algoId := "x", success := false, reason := "Algorithm not initialized" }, [])
    ∧ start_indicator_async [] "x"
      = ({ id := "x", success := false, reason := "Indicator not initialized" }, [])
    ∧ stop_indicator_async [] "x"
      = ({ id := "x", success := false, reason := "Indicator not found" }, []) :=
  claim_unknown_id_amended [] [] "x" "x" none rfl rfl

/-- Counterexample to C5 as stated: the indicator-service Stop on an
unknown id answers with reason "Indicator not found", which is not (and
does not even contain) "not initialized". -/
theorem claim_unknown_id_cex :
    (stop_indicator_async [] "x").1.reason = "Indicator not found"
    ∧ (stop_indicator_async [] "x").1.reason ≠ "not initialized"
    ∧ ¬ ("not initialized".toList <:+:
        (stop_indicator_async [] "x").1.reason.toList) := by
  refine ⟨rfl, by decide, by decide⟩

end Doyen

namespace Doyen

/-- C6: each data fan-out handler acknowledges with the event's
correlation id unconditionally, and the per-iteration trace of hook
invocations covers exactly the registered instances declaring the hook —
in registry order, independent of which hooks raise (a raising hook is
recorded with a false flag, caught, and does not stop the loop) — so
with unique instance ids every declaring instance is invoked exactly
once no matter how many others raised. -/
theorem claim_fanout_resilience (reg : AlgoRegistry) (rid : ℕ) :
    (TradeData reg rid).1 = { id := rid }
    ∧ (CandlestickData reg rid).1 = { id := rid }
    ∧ (DepthOfBookData reg rid).1 = { id := rid }
    ∧ (TradeData reg rid).2.map Prod.fst
        = (reg.filter (fun e => e.2.algorithm.has_process_trade)).map Prod.fst
    ∧ (CandlestickData reg rid).2.map Prod.fst
        = (reg.filter (fun e => e.2.algorithm.has_process_candle)).map Prod.fst
    ∧ (DepthOfBookData reg rid).2.map Prod.fst
        = (reg.filter (fun e => e.2.algorithm.has_process_dob)).map Prod.fst
    ∧ (∀ e ∈ reg, (reg.map Prod.fst).Nodup →
        e.2.algorithm.has_process_candle = true →
        ((CandlestickData reg rid).2.map Prod.fst).count e.1 = 1)
    ∧ (∀ e ∈ reg, (reg.map Prod.fst).Nodup →
        e.2.algorithm.has_process_trade = true →
        ((TradeData reg rid).2.map Prod.fst).count e.1 = 1) := by
  refine ⟨rfl, rfl, rfl, fanoutTrade_map_fst reg, fanoutCandle_map_fst reg,
    fanoutDob_map_fst reg, ?_, ?_⟩
  · intro e he nd hp
    rw [show (CandlestickData reg rid).2 = fanoutCandle reg from rfl,
      fanoutCandle_map_fst reg]
    exact filter_map_fst_count_eq_one reg _ he nd hp
  · intro e he nd hp
    rw [show (TradeData reg rid).2 = fanoutTrade reg from rfl,
      fanoutTrade_map_fst reg]
    exact filter_map_fst_count_eq_one reg _ he nd hp

/-- Witness for C6: five registered plugins, the third one's candle hook
raises; the ack still carries correlation id 7 and plugin p4 is invoked
exactly once. -/
theorem claim_fanout_resilience_witness :
    (CandlestickData fanoutReg5 7).1 = { id := 7 }
    ∧ ((CandlestickData fanoutReg5 7).2.map Prod.fst).count "p4" = 1 := by
  have h := claim_fanout_resilience fanoutReg5 7
  exact ⟨h.2.1, h.2.2.2.2.2.2.1
    ("p4", sampleCtx "p4" AlgoState.running (sampleAlgo none))
    (by decide) (by decide) (by decide)⟩

/-- C7: a paused plugin's `send_order` returns None without the remote
engine being called; `cancel_order` carries no paused check and still
reaches the remote engine for a paused instance; and a raising remote
call yields None to the plugin (for both the cancel path and a
well-formed interface-level order placement) instead of propagating. -/
theorem claim_gateway_paused (a : AlgoSelf) (env : RemoteEnv) (mid : ℕ)
    (aid : String) :
    (a.paused = true → Algorithm_send_order a env mid = (none, false))
    ∧ (a.paused = true → a.has_interface = true →
        (Algorithm_cancel_order a env mid).2 = true)
    ∧ (env.cancelOrder_raises = true →
        (Algorithm_cancel_order a env mid).1 = none)
    ∧ (env.sendOrder_raises = true →
        (interface_send_order env aid mid true true).1 = none) := by
  refine ⟨?_, ?_, ?_, ?_⟩
  · intro h
    simp [Algorithm_send_order, h]
  · intro _ h
    by_cases hc : env.cancelOrder_raises <;>
      simp [Algorithm_cancel_order, h, interface_cancel_order, hc]
  · intro h
    by_cases hi : a.has_interface <;>
      simp [Algorithm_cancel_order, hi, interface_cancel_order, h]
  · intro h
    simp [interface_send_order, h]

/-- Witness for C7: a paused instance with a bound interface against a
remote engine whose calls raise. -/
theorem claim_gateway_paused_witness :
    (Algorithm_send_order { algo_id := "a1", paused := true, has_interface := true, simulated := false } { sendOrder_raises := true, cancelOrder_raises := true } 5 = (none, false))
    ∧ ((Algorithm_cancel_order { algo_id := "a1", paused := true, has_interface := true, simulated := false } { sendOrder_raises := true, cancelOrder_raises := true } 5).2 = true)
    ∧ ((Algorithm_cancel_order { algo_id := "a1", paused := true, has_interface := true, simulated := false } { sendOrder_raises := true, cancelOrder_raises := true } 5).1 = none)
    ∧ ((interface_send_order { sendOrder_raises := true, cancelOrder_raises := true } "a1" 5 true true).1 = none) := by
  have h := claim_gateway_paused
    { algo_id := "a1", paused := true, has_interface := true, simulated := false }
    { sendOrder_raises := true, cancelOrder_raises := true } 5 "a1"
  exact ⟨h.1 rfl, h.2.1 rfl rfl, h.2.2.1 rfl, h.2.2.2 rfl⟩

/-- C8: the plugin loaders resolve a successfully executed module by the
three-way preference — exported singleton instance first, else an
instance of the first concrete base-class subclass, else the
module-function adapter when `get_options_schema`, `start` and `process`
all exist — and fail with no instance when none of the three applies. -/
theorem claim_loader_preference (m : PyModule) :
    (m.singleton_attr = some true →
      load_plugin_resolution m = some LoadedPlugin.singletonInstance)
    ∧ (m.singleton_attr ≠ some true → ∀ c cs, m.subclasses = c :: cs →
      load_plugin_resolution m = some (LoadedPlugin.fromClass c))
    ∧ (m.singleton_attr ≠ some true → m.subclasses = [] →
      m.has_get_options_schema = true → m.has_start = true →
      m.has_process = true →
      load_plugin_resolution m = some LoadedPlugin.functionWrapper)
    ∧ (m.singleton_attr ≠ some true → m.subclasses = [] →
      (m.has_get_options_schema && m.has_start && m.has_process) = false →
      load_plugin_resolution m = none) := by
  refine ⟨?_, ?_, ?_, ?_⟩
  · intro h
    simp [load_plugin_resolution, h]
  · intro h c cs hsub
    simp [load_plugin_resolution, h, hsub]
  · intro h hsub h1 h2 h3
    simp [load_plugin_resolution, h, hsub, h1, h2, h3]
  · intro h hsub hf
    simp [load_plugin_resolution, h, hsub, hf]

/-- Witness for C8: a module without a singleton attribute but with a
concrete subclass resolves to an instance of that first subclass. -/
theorem claim_loader_preference_witness :
    load_plugin_resolution { singleton_attr := some false, subclasses := ["SMAIndicator"], has_get_options_schema := true, has_start := true, has_process := true }
      = some (LoadedPlugin.fromClass "SMAIndicator") :=
  (claim_loader_preference _).2.1 (by decide) "SMAIndicator" [] rfl

end Doyen

namespace Doyen

/-- C9: a second successful Initialize for an already-registered id
returns success and silently replaces the entry with a fresh context
(state Initialized, no stored configuration) — the prior instance's
stop/teardown hook is never invoked, and the id still maps to exactly
one entry — in both the algorithms and the indicators service. -/
theorem claim_reinit_replaces
    (reg : AlgoRegistry) (algo_id name : String) (env : AlgoInitEnv)
    (old : AlgorithmContext) (algo : AlgoBehavior)
    (ireg : IndRegistry) (ind_id symbol : String) (ienv : IndInitEnv)
    (iold : IndicatorContext) (ind : IndBehavior)
    (h : alookup reg algo_id = some old)
    (hs : env.script_found = true) (hl : env.load_result = some algo)
    (hi : alookup ireg ind_id = some iold)
    (his : ienv.script_found = true) (hil : ienv.load_result = some ind) :
    ((InitializeAlgorithm reg algo_id name env).1.success = true
     ∧ alookup (InitializeAlgorithm reg algo_id name env).2.1 algo_id
        = some { id := algo_id, name := name, algorithm := algo, state := AlgoState.initialized, configuration := none }
     ∧ ((reg.map Prod.fst).Nodup →
        countKey (InitializeAlgorithm reg algo_id name env).2.1 algo_id = 1)
     ∧ (∀ j, HookEvent.stopCall j ∉ (InitializeAlgorithm reg algo_id name env).2.2))
    ∧ ((initialize_indicator_async ireg ind_id symbol name ienv).1.success = true
     ∧ alookup (initialize_indicator_async ireg ind_id symbol name ienv).2.1 ind_id
        = some { id := ind_id, symbol := symbol, name := name, indicator := ind }
     ∧ ((ireg.map Prod.fst).Nodup →
        countKey (initialize_indicator_async ireg ind_id symbol name ienv).2.1 ind_id = 1)
     ∧ (∀ j, HookEvent.stopCall j ∉ (initialize_indicator_async ireg ind_id symbol name ienv).2.2)) := by
  constructor
  · refine ⟨?_, ?_, ?_, ?_⟩
    · simp [InitializeAlgorithm, hs, hl]
    · simp [InitializeAlgorithm, hs, hl, alookup_aset_self]
    · intro nd
      have hred : (InitializeAlgorithm reg algo_id name env).2.1
          = aset reg algo_id { id := algo_id, name := name, algorithm := algo, state := AlgoState.initialized, configuration := none } := by
        simp [InitializeAlgorithm, hs, hl]
      rw [hred, countKey_aset_of_some h]
      exact countKey_eq_one_of_nodup nd h
    · intro j
      simp [InitializeAlgorithm, hs, hl]
  · refine ⟨?_, ?_, ?_, ?_⟩
    · simp [initialize_indicator_async, his, hil]
    · simp [initialize_indicator_async, his, hil, alookup_aset_self]
    · intro nd
      have hred : (initialize_indicator_async ireg ind_id symbol name ienv).2.1
          = aset ireg ind_id { id := ind_id, symbol := symbol, name := name, indicator := ind } := by
        simp [initialize_indicator_async, his, hil]
      rw [hred, countKey_aset_of_some hi]
      exact countKey_eq_one_of_nodup nd hi
    · intro j
      simp [initialize_indicator_async, his, hil]

/-- Witness for C9: re-initializing the registered ids "a1" and "i1"
succeeds, replaces the entries, keeps them unique, and triggers no stop
hook. -/
theorem claim_reinit_replaces_witness :
    ((InitializeAlgorithm [("a1", sampleCtx "a1" AlgoState.running (sampleAlgo none))] "a1" "Scalpbot" { script_found := true, load_result := some (sampleAlgo none), schema_result := .ok "{}" }).1.success = true
     ∧ countKey (InitializeAlgorithm [("a1", sampleCtx "a1" AlgoState.running (sampleAlgo none))] "a1" "Scalpbot" { script_found := true, load_result := some (sampleAlgo none), schema_result := .ok "{}" }).2.1 "a1" = 1)
    ∧ ((initialize_indicator_async [("i1", sampleIndCtx "i1" (sampleIndB none))] "i1" "BTC-USD" "SMA" { script_found := true, load_result := some (sampleIndB none), schema_result := .ok "{}" }).1.success = true
     ∧ ∀ j, HookEvent.stopCall j ∉ (initialize_indicator_async [("i1", sampleIndCtx "i1" (sampleIndB none))] "i1" "BTC-USD" "SMA" { script_found := true, load_result := some (sampleIndB none), schema_result := .ok "{}" }).2.2) := by
  have h := claim_reinit_replaces
    [("a1", sampleCtx "a1" AlgoState.running (sampleAlgo none))] "a1"
    "Scalpbot" { script_found := true, load_result := some (sampleAlgo none), schema_result := .ok "{}" }
    (sampleCtx "a1" AlgoState.running (sampleAlgo none)) (sampleAlgo none)
    [("i1", sampleIndCtx "i1" (sampleIndB none))] "i1" "BTC-USD"
    { script_found := true, load_result := some (sampleIndB none), schema_result := .ok "{}" }
    (sampleIndCtx "i1" (sampleIndB none)) (sampleIndB none)
    (by decide) rfl rfl (by decide) rfl rfl
  exact ⟨⟨h.1.1, h.1.2.2.1 (by decide)⟩, ⟨h.2.1, h.2.2.2.2⟩⟩

/-- C10: the data fan-out handlers never consult the lifecycle state: the
invocation trace over a registry whose states are rewritten arbitrarily
is unchanged, and every entry declaring the matching hook — including
entries that are merely Initialized or currently Paused — is invoked. -/
theorem claim_fanout_ignores_state (reg : AlgoRegistry)
    (f : String → AlgoState) (rid : ℕ) :
    (TradeData (setStates f reg) rid).2 = (TradeData reg rid).2
    ∧ (CandlestickData (setStates f reg) rid).2 = (CandlestickData reg rid).2
    ∧ (DepthOfBookData (setStates f reg) rid).2 = (DepthOfBookData reg rid).2
    ∧ (∀ e ∈ reg, e.2.algorithm.has_process_candle = true →
        e.1 ∈ ((CandlestickData reg rid).2.map Prod.fst))
    ∧ (∀ e ∈ reg, e.2.algorithm.has_process_trade = true →
        e.1 ∈ ((TradeData reg rid).2.map Prod.fst))
    ∧ (∀ e ∈ reg, e.2.algorithm.has_process_dob = true →
        e.1 ∈ ((DepthOfBookData reg rid).2.map Prod.fst)) := by
  refine ⟨fanoutTrade_setStates f reg, fanoutCandle_setStates f reg,
    fanoutDob_setStates f reg, ?_, ?_, ?_⟩
  · intro e he hp
    rw [show (CandlestickData reg rid).2 = fanoutCandle reg from rfl,
      fanoutCandle_map_fst reg]
    exact List.mem_map_of_mem Prod.fst (List.mem_filter.mpr ⟨he, hp⟩)
  · intro e he hp
    rw [show (TradeData reg rid).2 = fanoutTrade reg from rfl,
      fanoutTrade_map_fst reg]
    exact List.mem_map_of_mem Prod.fst (List.mem_filter.mpr ⟨he, hp⟩)
  · intro e he hp
    rw [show (DepthOfBookData reg rid).2 = fanoutDob reg from rfl,
      fanoutDob_map_fst reg]
    exact List.mem_map_of_mem Prod.fst (List.mem_filter.mpr ⟨he, hp⟩)

/-- Witness for C10: the paused plugin p5 still receives the candle event,
and rewriting every state to Paused leaves the trace unchanged. -/
theorem claim_fanout_ignores_state_witness :
    (CandlestickData (setStates (fun _ => AlgoState.paused) fanoutReg5) 7).2
      = (CandlestickData fanoutReg5 7).2
    ∧ "p5" ∈ ((CandlestickData fanoutReg5 7).2.map Prod.fst) := by
  have h := claim_fanout_ignores_state fanoutReg5
    (fun _ => AlgoState.paused) 7
  exact ⟨h.2.1, h.2.2.2.1
    ("p5", sampleCtx "p5" AlgoState.paused (sampleAlgo none))
    (by decide) (by decide)⟩

end Doyen
